import Mathlib

/-!
Verification of the web-forum backend's auth, ownership, reaction,
membership and notification core, as a shallow embedding in Lean.

Conventions of the embedding:
* Go strings are byte sequences (`GoStr := List UInt8`); Go indexing and
  slicing are byte-based, so `List.take`/`List.drop` model `s[:k]`/`s[k:]`.
* Timestamps are integers (Unix seconds); `time.Now().After(t)` is `now > t`.
* Database tables are lists of rows plus a `nextId` counter standing for the
  `BIGSERIAL` sequence; `sql.ErrNoRows` is the `.error` side of an `Except`.
* HMAC signatures are symbolic: a signed JWT records the algorithm, the
  claim set and the key it was signed with, and verification with key `k`
  succeeds exactly when the token was HMAC-signed with `k`.
* bcrypt is symbolic: `GenerateFromPassword` is an injective tagging of the
  password and `CompareHashAndPassword` succeeds exactly on that tag.
-/

namespace WebForum

/-- Go strings as byte sequences (`len`, indexing and slicing in Go are
byte-based). -/
abbrev GoStr := List UInt8

/-- Bytes of an ASCII literal. All literals in this development are ASCII,
where the UTF-8 bytes coincide with the code points. -/
def goStr (s : String) : GoStr := s.data.map (fun c => UInt8.ofNat c.toNat)

/-- Model of `findSubstring` (auth_handler.go): the general-case scan of the
Go loop `for i := 0; i <= len(s)-len(substr); i++ { if s[i:i+len(substr)] ==
substr { return true } }`, written as structural recursion on `s` (each
recursive step drops the first byte, i.e. advances `i` by one). -/
def findSubstring : GoStr → GoStr → Bool
  | [], sub => sub.isEmpty
  | a :: t, sub =>
    if (a :: t).length < sub.length then false
    else if (a :: t).take sub.length == sub then true
    else findSubstring t sub

/-- Model of `contains` (auth_handler.go): length guard, whole-string equality,
prefix slice `s[:len(substr)]`, suffix slice `s[len(s)-len(substr):]`, then the
general scan. -/
def contains (s sub : GoStr) : Bool :=
  decide (sub.length ≤ s.length) &&
    (s == sub || (decide (sub.length < s.length) &&
      (s.take sub.length == sub || s.drop (s.length - sub.length) == sub ||
        findSubstring s sub)))

theorem findSubstring_iff (s sub : GoStr) :
    findSubstring s sub = true ↔ sub <:+: s := by
  induction s with
  | nil =>
    simp only [findSubstring, List.isEmpty_iff, List.infix_nil]
  | cons a t ih =>
    simp only [findSubstring]
    by_cases hlen : (a :: t).length < sub.length
    · simp only [if_pos hlen]
      constructor
      · intro h; exact absurd h (by simp)
      · intro h; exact absurd h.length_le (by omega)
    · simp only [if_neg hlen]
      by_cases hpre : (a :: t).take sub.length == sub
      · simp only [if_pos hpre]
        constructor
        · intro _
          exact (List.prefix_iff_eq_take.mpr (beq_iff_eq.mp hpre).symm).isInfix
        · intro _; trivial
      · simp only [if_neg hpre, ih]
        constructor
        · intro h; exact (List.infix_cons_iff).mpr (Or.inr h)
        · intro h
          rcases List.infix_cons_iff.mp h with h1 | h2
          · exfalso
            apply hpre
            rw [beq_iff_eq]
            exact (List.prefix_iff_eq_take.mp h1).symm
          · exact h2

theorem contains_iff (s sub : GoStr) : contains s sub = true ↔ sub <:+: s := by
  simp only [contains, Bool.and_eq_true, Bool.or_eq_true, decide_eq_true_eq,
    beq_iff_eq]
  constructor
  · rintro ⟨-, heq | ⟨-, (htake | hdrop) | hfind⟩⟩
    · exact heq ▸ List.infix_refl sub
    · exact (List.prefix_iff_eq_take.mpr htake.symm).isInfix
    · have hsuf : sub <:+ s := List.suffix_iff_eq_drop.mpr hdrop.symm
      exact hsuf.isInfix
    · exact (findSubstring_iff s sub).mp hfind
  · intro h
    refine ⟨h.length_le, ?_⟩
    by_cases hl : sub.length = s.length
    · exact Or.inl (h.eq_of_length hl).symm
    · refine Or.inr ⟨lt_of_le_of_ne h.length_le hl, ?_⟩
      exact Or.inr ((findSubstring_iff s sub).mpr h)

/-- C10: the helper `contains(s, substr)` returns true exactly when `substr`
occurs as a contiguous substring of `s`; in particular it accepts the empty
substring and `substr = s`. (Out-of-bounds reads do not arise: every slice in
the embedding is a total `take`/`drop`, mirroring the Go code's guards.) -/
theorem c10_contains_correct :
    (∀ s sub : GoStr, contains s sub = true ↔ sub <:+: s) ∧
    (∀ s : GoStr, contains s [] = true) ∧
    (∀ s : GoStr, contains s s = true) := by
  refine ⟨contains_iff, ?_, ?_⟩
  · intro s; exact (contains_iff s []).mpr List.nil_infix
  · intro s; exact (contains_iff s s).mpr (List.infix_refl s)

/-- Decimal digit character, `'0' + d` for `d < 10`. -/
def digitChar (d : Nat) : Char := Char.ofNat (48 + d)

/-- Decimal digits of a natural number, most significant first: the digit
loop of Go's `strconv.FormatInt(_, 10)`, written with a fuel argument so the
definition is structural (the fuel `n + 1` always suffices). -/
def natDigitsAux : Nat → Nat → List Char
  | 0, _ => []
  | fuel + 1, n =>
    if n < 10 then [digitChar n]
    else natDigitsAux fuel (n / 10) ++ [digitChar (n % 10)]

def natDigits (n : Nat) : List Char := natDigitsAux (n + 1) n

/-- Model of `strconv.FormatInt(v, 10)`: decimal digits, `'-'`-prefixed for
negative values. -/
def formatInt (v : Int) : String :=
  if v < 0 then ⟨'-' :: natDigits v.natAbs⟩ else ⟨natDigits v.toNat⟩

/-- Value of a decimal digit character, `none` for a non-digit: the per-byte
check `'0' <= c && c <= '9'` of Go's `strconv.ParseUint`. -/
def digitVal (c : Char) : Option Nat :=
  if 48 ≤ c.toNat ∧ c.toNat ≤ 57 then some (c.toNat - 48) else none

/-- Accumulating digit loop of Go's `strconv.ParseUint` in base 10. -/
def parseDigitsAux : Nat → List Char → Option Nat
  | acc, [] => some acc
  | acc, c :: cs =>
    match digitVal c with
    | some d => parseDigitsAux (acc * 10 + d) cs
    | none => none

/-- Digit string to value; the empty string is a syntax error. -/
def parseDigits (l : List Char) : Option Nat :=
  if l.isEmpty then none else parseDigitsAux 0 l

/-- Largest int64, `2^63 - 1`. -/
def int64Max : Nat := 9223372036854775807

/-- Model of `strconv.ParseInt(s, 10, 64)`: optional sign, a nonempty run of
decimal digits, and an int64 range check (out-of-range input is an error,
like Go's `ErrRange`). -/
def parseInt64 (s : String) : Option Int :=
  match s.data with
  | [] => none
  | c :: rest =>
    if c = '+' then
      (parseDigits rest).bind fun n =>
        if n ≤ int64Max then some (n : Int) else none
    else if c = '-' then
      (parseDigits rest).bind fun n =>
        if n ≤ int64Max + 1 then some (-(n : Int)) else none
    else
      (parseDigits (c :: rest)).bind fun n =>
        if n ≤ int64Max then some (n : Int) else none

theorem digitVal_digitChar (d : Nat) (h : d < 10) :
    digitVal (digitChar d) = some d := by
  interval_cases d <;> decide

theorem digitChar_toNat (d : Nat) (h : d < 10) :
    48 ≤ (digitChar d).toNat ∧ (digitChar d).toNat ≤ 57 := by
  interval_cases d <;> decide

theorem natDigitsAux_ne_nil (fuel n : Nat) (h : n < fuel) :
    natDigitsAux fuel n ≠ [] := by
  cases fuel with
  | zero => omega
  | succ fuel =>
    simp only [natDigitsAux]
    split
    · simp
    · simp

theorem natDigitsAux_digits (fuel n : Nat) (h : n < fuel) :
    ∀ c ∈ natDigitsAux fuel n, 48 ≤ c.toNat ∧ c.toNat ≤ 57 := by
  induction fuel generalizing n with
  | zero => omega
  | succ fuel ih =>
    simp only [natDigitsAux]
    split
    · intro c hc
      simp only [List.mem_singleton] at hc
      subst hc
      exact digitChar_toNat n (by omega)
    · intro c hc
      rcases List.mem_append.mp hc with h1 | h2
      · have hdiv : n / 10 < fuel := by
          have := Nat.div_lt_self (by omega : 0 < n) (by omega : 1 < 10)
          omega
        exact ih (n / 10) hdiv c h1
      · simp only [List.mem_singleton] at h2
        subst h2
        exact digitChar_toNat (n % 10) (Nat.mod_lt n (by omega))

theorem parseDigitsAux_append (acc : Nat) (l₁ l₂ : List Char) :
    parseDigitsAux acc (l₁ ++ l₂) =
      (parseDigitsAux acc l₁).bind fun v => parseDigitsAux v l₂ := by
  induction l₁ generalizing acc with
  | nil => simp [parseDigitsAux]
  | cons c cs ih =>
    simp only [List.cons_append, parseDigitsAux]
    cases digitVal c with
    | none => simp
    | some d => simp [ih]

theorem parseDigitsAux_natDigitsAux (fuel : Nat) :
    ∀ n acc, n < fuel →
      parseDigitsAux acc (natDigitsAux fuel n) =
        some (acc * 10 ^ (natDigitsAux fuel n).length + n) := by
  induction fuel with
  | zero => omega
  | succ fuel ih =>
    intro n acc h
    simp only [natDigitsAux]
    split
    · rename_i h10
      simp [parseDigitsAux, digitVal_digitChar n h10]
    · rename_i h10
      have hdiv : n / 10 < fuel := by
        have := Nat.div_lt_self (by omega : 0 < n) (by omega : 1 < 10)
        omega
      rw [parseDigitsAux_append, ih (n / 10) acc hdiv]
      simp only [Option.some_bind, parseDigitsAux,
        digitVal_digitChar (n % 10) (Nat.mod_lt n (by omega))]
      have hlen : (natDigitsAux fuel (n / 10) ++ [digitChar (n % 10)]).length =
          (natDigitsAux fuel (n / 10)).length + 1 := by simp
      rw [hlen, pow_succ]
      congr 1
      have hx : n / 10 * 10 + n % 10 = n := by omega
      calc (acc * 10 ^ (natDigitsAux fuel (n / 10)).length + n / 10) * 10 + n % 10
          = acc * (10 ^ (natDigitsAux fuel (n / 10)).length * 10) +
              (n / 10 * 10 + n % 10) := by ring
        _ = acc * (10 ^ (natDigitsAux fuel (n / 10)).length * 10) + n := by rw [hx]

theorem parseDigits_natDigits (n : Nat) :
    parseDigits (natDigits n) = some n := by
  unfold parseDigits natDigits
  rw [if_neg (by simpa using natDigitsAux_ne_nil (n + 1) n (by omega))]
  simpa using parseDigitsAux_natDigitsAux (n + 1) n 0 (by omega)

theorem parseInt64_mk_cons (c : Char) (cs : List Char) :
    parseInt64 ⟨c :: cs⟩ =
      (if c = '+' then
        (parseDigits cs).bind fun n => if n ≤ int64Max then some (n : Int) else none
      else if c = '-' then
        (parseDigits cs).bind fun n => if n ≤ int64Max + 1 then some (-(n : Int)) else none
      else
        (parseDigits (c :: cs)).bind fun n =>
          if n ≤ int64Max then some (n : Int) else none) := rfl

/-- Round trip: a positive int64 formatted in decimal parses back to itself. -/
theorem parseInt64_formatInt_pos (v : Int) (h0 : 0 < v) (hmax : v ≤ (int64Max : Int)) :
    parseInt64 (formatInt v) = some v := by
  have hvn : ¬ v < 0 := by omega
  have hne : natDigits v.toNat ≠ [] :=
    natDigitsAux_ne_nil (v.toNat + 1) v.toNat (Nat.lt_succ_self _)
  obtain ⟨c, cs, hcons⟩ := List.exists_cons_of_ne_nil hne
  have hc : c ∈ natDigits v.toNat := by rw [hcons]; exact List.mem_cons_self c cs
  have hcdig : 48 ≤ c.toNat ∧ c.toNat ≤ 57 :=
    natDigitsAux_digits (v.toNat + 1) v.toNat (Nat.lt_succ_self _) c hc
  have hplus : ¬ c = '+' := by
    intro he; subst he; exact absurd hcdig (by decide)
  have hminus : ¬ c = '-' := by
    intro he; subst he; exact absurd hcdig (by decide)
  unfold formatInt
  rw [if_neg hvn, hcons, parseInt64_mk_cons, if_neg hplus, if_neg hminus, ← hcons,
    parseDigits_natDigits]
  simp only [Option.some_bind]
  rw [if_pos (show v.toNat ≤ int64Max by unfold int64Max at hmax ⊢; omega)]
  congr 1
  omega

/-- Error taxonomy of the HTTP helper layer (response.go): each helper sends a
distinct status code; 401 UNAUTHORIZED doubles as the spec's Unauthenticated. -/
inductive ErrKind
  | unauthorized
  | forbidden
  | notFound
  | conflict
  | validation
  | internal
  | badRequest
deriving DecidableEq

/-- Registered JWT claim set used by `createToken` (subject, exp, iat, jti). -/
structure JwtClaims where
  subject : String
  expiresAt : Option Int
  issuedAt : Option Int
  jti : String
deriving DecidableEq

/-- JWT signing algorithms relevant to the middleware's method check. -/
inductive JwtAlg
  | HS256
  | HS384
  | HS512
  | RS256
  | noneAlg
deriving DecidableEq

/-- Whether the algorithm is in the HMAC family (`*jwt.SigningMethodHMAC`). -/
def JwtAlg.isHMAC : JwtAlg → Bool
  | .HS256 => true
  | .HS384 => true
  | .HS512 => true
  | _ => false

/-- Symbolic signed token string: the claim set together with the algorithm
and the key the HMAC tag was computed with. Verification against key `k`
succeeds exactly when the token was HMAC-signed with `k`. -/
structure SignedJWT where
  alg : JwtAlg
  claims : JwtClaims
  signedWith : String
deriving DecidableEq

/-- Model of `jwt.ParseWithClaims` with the middleware's keyfunc: reject a
non-HMAC method, verify the tag against the shared secret, then run jwt v5's
default registered-claim validation (an `exp` in the past fails; a missing
`exp` passes). Any failure surfaces as an invalid parse. -/
def parseJwt (tok : SignedJWT) (secret : String) (now : Int) : Option JwtClaims :=
  if ¬ tok.alg.isHMAC then none
  else if ¬ tok.signedWith = secret then none
  else
    match tok.claims.expiresAt with
    | some e => if now < e then some tok.claims else none
    | none => some tok.claims

/-- Row of the `tokens` table. -/
structure TokenRow where
  id : Int
  userID : Int
  token : SignedJWT
  expiresAt : Int
deriving DecidableEq

/-- The `tokens` table: rows plus the `BIGSERIAL` sequence value. -/
structure TokenStore where
  rows : List TokenRow
  nextId : Int
deriving DecidableEq

/-- Postgres unique-violation message prefix (constraint `tokens(token)`). -/
def dupKeyErr : String := "pq: duplicate key value violates unique constraint"

/-- Model of `TokenRepository.Create`: `INSERT INTO tokens ... RETURNING
token_id`; the `token UNIQUE` column makes a duplicate string a storage
error. -/
def TokenStore.create (st : TokenStore) (userID : Int) (tok : SignedJWT)
    (expiresAt : Int) : Except String (TokenRow × TokenStore) :=
  if st.rows.any (fun r => decide (r.token = tok)) then .error dupKeyErr
  else
    .ok (⟨st.nextId, userID, tok, expiresAt⟩,
      ⟨st.rows ++ [⟨st.nextId, userID, tok, expiresAt⟩], st.nextId + 1⟩)

/-- Model of `TokenRepository.GetByToken`: `SELECT ... WHERE token = $1`;
`none` is `sql.ErrNoRows`. -/
def TokenStore.getByToken (st : TokenStore) (tok : SignedJWT) : Option TokenRow :=
  st.rows.find? (fun r => decide (r.token = tok))

/-- Model of `TokenRepository.DeleteByID`: `DELETE FROM tokens WHERE
token_id = $1`; zero rows affected is `sql.ErrNoRows`. -/
def TokenStore.deleteByID (st : TokenStore) (id : Int) : Except Unit TokenStore :=
  if (st.rows.filter (fun r => decide (¬ r.id = id))).length = st.rows.length then
    .error ()
  else .ok ⟨st.rows.filter (fun r => decide (¬ r.id = id)), st.nextId⟩

/-- Token lifetime: `now.Add(24 * time.Hour)` in seconds. -/
def tokenTTL : Int := 24 * 60 * 60

/-- What `createToken` returns on success: the signed string, its expiry and
the token store after the insert. -/
structure IssueResult where
  token : SignedJWT
  expiresAt : Int
  store : TokenStore
deriving DecidableEq

/-- Model of `createToken` (auth_handler.go): HS256-sign claims with
subject = the decimal user id, exp = now+24h, iat = now and a random jti
(passed in, as the crypto/rand read is environmental), then persist one
Token row carrying the same expiry. -/
def createToken (st : TokenStore) (userID : Int) (secret : String) (now : Int)
    (jti : String) : Except String IssueResult :=
  match st.create userID
      ⟨.HS256, ⟨formatInt userID, some (now + tokenTTL), some now, jti⟩, secret⟩
      (now + tokenTTL) with
  | .ok (_, st') =>
    .ok ⟨⟨.HS256, ⟨formatInt userID, some (now + tokenTTL), some now, jti⟩, secret⟩,
      now + tokenTTL, st'⟩
  | .error e => .error e

/-- Outcome of the auth middleware: an authenticated user id injected into
the request context, or an `http.Error` with a status code and message. -/
inductive MwResult
  | authed (userID : Int)
  | httpError (status : Nat) (msg : String)
deriving DecidableEq

def msgInvalidToken : String := "invalid token"
def msgTokenExpired : String := "token expired"
def msgInvalidSubject : String := "invalid token subject"

/-- Model of `AuthMiddleware` (middleware.go) past header extraction: parse
and verify the bearer token, re-check the embedded expiry, parse the subject
as an int64 rejecting 0, look the token string up in the store, and reject a
row whose `expires_at` has passed. -/
def authMiddleware (st : TokenStore) (secret : String) (tok : SignedJWT)
    (now : Int) : MwResult :=
  match parseJwt tok secret now with
  | none => .httpError 401 msgInvalidToken
  | some claims =>
    if (match claims.expiresAt with
        | some e => decide (now > e)
        | none => false) then
      .httpError 401 msgTokenExpired
    else
      match parseInt64 claims.subject with
      | none => .httpError 401 msgInvalidSubject
      | some uid =>
        if uid = 0 then .httpError 401 msgInvalidSubject
        else
          match st.getByToken tok with
          | none => .httpError 401 msgInvalidToken
          | some t =>
            if now > t.expiresAt then .httpError 401 msgTokenExpired
            else .authed uid

def msgMissingAuthToken : String := "missing authorization token"
def msgFailedDeleteToken : String := "failed to delete token"
def msgLogoutOk : String := "Logout successfully!"

/-- Model of `HandleLogOut` (auth_handler.go): extract the bearer token
(`none` models a missing/malformed Authorization header), find its row by
string, and delete the row by id. The store is returned unchanged on every
failure path. -/
def handleLogOut (st : TokenStore) (tok : Option SignedJWT) :
    (Except (ErrKind × String) String) × TokenStore :=
  match tok with
  | none => (.error (.unauthorized, msgMissingAuthToken), st)
  | some tk =>
    match st.getByToken tk with
    | none => (.error (.unauthorized, msgInvalidToken), st)
    | some t =>
      match st.deleteByID t.id with
      | .ok st' => (.ok msgLogoutOk, st')
      | .error _ => (.error (.internal, msgFailedDeleteToken), st)

theorem find?_append_singleton_of_none {α : Type} (p : α → Bool) (l : List α)
    (a : α) (h : l.any p = false) (hp : p a = true) :
    (l ++ [a]).find? p = some a := by
  rw [List.find?_append, List.find?_eq_none.mpr (by simpa using List.any_eq_false.mp h)]
  simp [List.find?, hp]

theorem createToken_ok (st : TokenStore) (uid : Int) (secret : String)
    (now : Int) (jti : String) (res : IssueResult)
    (h : createToken st uid secret now jti = .ok res) :
    st.rows.any (fun r => decide (r.token =
      (⟨.HS256, ⟨formatInt uid, some (now + tokenTTL), some now, jti⟩,
        secret⟩ : SignedJWT))) = false ∧
    res = ⟨⟨.HS256, ⟨formatInt uid, some (now + tokenTTL), some now, jti⟩, secret⟩,
      now + tokenTTL,
      ⟨st.rows ++ [⟨st.nextId, uid,
        ⟨.HS256, ⟨formatInt uid, some (now + tokenTTL), some now, jti⟩, secret⟩,
        now + tokenTTL⟩], st.nextId + 1⟩⟩ := by
  cases hb : st.rows.any (fun r => decide (r.token =
      (⟨.HS256, ⟨formatInt uid, some (now + tokenTTL), some now, jti⟩,
        secret⟩ : SignedJWT))) with
  | false =>
    simp only [createToken, TokenStore.create, hb, Bool.false_eq_true,
      if_false] at h
    exact ⟨rfl, (Except.ok.injEq _ _ ▸ h).symm⟩
  | true =>
    simp only [createToken, TokenStore.create, hb, if_true] at h
    exact absurd h (by simp)

/-- C2: Issue(user_id) (`createToken`) signs HS256 claims whose subject is the
decimal user id with expiry now+24h, persists one Token row with the same
expiry, and an immediate Validate (`AuthMiddleware`) of the returned token
succeeds with exactly that user id. -/
theorem c2_issue_then_validate (st : TokenStore) (uid : Int) (secret : String)
    (now : Int) (jti : String) (res : IssueResult)
    (h : createToken st uid secret now jti = .ok res)
    (h0 : 0 < uid) (hmax : uid ≤ (int64Max : Int)) :
    res.token.claims.subject = formatInt uid ∧
    res.token.claims.expiresAt = some (now + tokenTTL) ∧
    res.token.alg = .HS256 ∧
    res.expiresAt = now + tokenTTL ∧
    res.store.rows = st.rows ++ [⟨st.nextId, uid, res.token, now + tokenTTL⟩] ∧
    authMiddleware res.store secret res.token now = .authed uid := by
  obtain ⟨hfresh, hres⟩ := createToken_ok st uid secret now jti res h
  subst hres
  have httl : ¬ now > now + tokenTTL := by unfold tokenTTL; omega
  have hfind := find?_append_singleton_of_none
    (fun r => decide (r.token =
      (⟨.HS256, ⟨formatInt uid, some (now + tokenTTL), some now, jti⟩,
        secret⟩ : SignedJWT)))
    st.rows
    ⟨st.nextId, uid,
      ⟨.HS256, ⟨formatInt uid, some (now + tokenTTL), some now, jti⟩, secret⟩,
      now + tokenTTL⟩ hfresh (by simp)
  refine ⟨rfl, rfl, rfl, rfl, rfl, ?_⟩
  have hparse : parseJwt
      (⟨.HS256, ⟨formatInt uid, some (now + tokenTTL), some now, jti⟩,
        secret⟩ : SignedJWT) secret now =
      some ⟨formatInt uid, some (now + tokenTTL), some now, jti⟩ := by
    simp [parseJwt, JwtAlg.isHMAC, show (0:Int) < tokenTTL by unfold tokenTTL; omega]
  simp only [authMiddleware, hparse, TokenStore.getByToken, hfind,
    parseInt64_formatInt_pos uid h0 hmax, decide_eq_true_eq]
  rw [if_neg httl, if_neg (show ¬ uid = 0 by omega), if_neg httl]

/-- Witness for C2 at a concrete input: issuing for user 7 at time 0 and
validating immediately authenticates user 7. -/
theorem c2_issue_then_validate_witness :
    authMiddleware
      ⟨[⟨1, 7, ⟨.HS256, ⟨formatInt 7, some (0 + tokenTTL), some 0, "j"⟩, "k"⟩,
        0 + tokenTTL⟩], 2⟩ "k"
      ⟨.HS256, ⟨formatInt 7, some (0 + tokenTTL), some 0, "j"⟩, "k"⟩ 0 =
      .authed 7 := by
  have h := c2_issue_then_validate ⟨[], 1⟩ 7 "k" 0 "j"
    ⟨⟨.HS256, ⟨formatInt 7, some (0 + tokenTTL), some 0, "j"⟩, "k"⟩, 0 + tokenTTL,
      ⟨[⟨1, 7, ⟨.HS256, ⟨formatInt 7, some (0 + tokenTTL), some 0, "j"⟩, "k"⟩,
        0 + tokenTTL⟩], 2⟩⟩
    (by rfl) (by decide) (by decide)
  exact h.2.2.2.2.2

/-- C1: after Issue and then Revoke (logout deletes the Token row), a
Validate of the same token string fails 401 even at an instant where the
HMAC signature and the embedded expiry claim alone would still verify. -/
theorem c1_revoke_then_validate_fails (st : TokenStore) (uid : Int)
    (secret : String) (now : Int) (jti : String) (res : IssueResult)
    (hWF : ∀ r ∈ st.rows, r.id < st.nextId)
    (h : createToken st uid secret now jti = .ok res)
    (h0 : 0 < uid) (hmax : uid ≤ (int64Max : Int))
    (now' : Int) (hlive : now' < res.expiresAt) :
    handleLogOut res.store (some res.token) =
      (.ok msgLogoutOk, ⟨st.rows, st.nextId + 1⟩) ∧
    (parseJwt res.token secret now').isSome = true ∧
    authMiddleware ⟨st.rows, st.nextId + 1⟩ secret res.token now' =
      .httpError 401 msgInvalidToken := by
  obtain ⟨hfresh, hres⟩ := createToken_ok st uid secret now jti res h
  have hlive' : now' < now + tokenTTL := by
    rw [hres] at hlive; exact hlive
  subst hres
  have hfind := find?_append_singleton_of_none
    (fun r => decide (r.token =
      (⟨.HS256, ⟨formatInt uid, some (now + tokenTTL), some now, jti⟩,
        secret⟩ : SignedJWT)))
    st.rows
    ⟨st.nextId, uid,
      ⟨.HS256, ⟨formatInt uid, some (now + tokenTTL), some now, jti⟩, secret⟩,
      now + tokenTTL⟩ hfresh (by simp)
  have hkeep : st.rows.filter (fun r => decide (¬ r.id = st.nextId)) = st.rows :=
    List.filter_eq_self.mpr (fun r hr => by
      simp only [decide_eq_true_eq]
      exact fun he => absurd (he ▸ hWF r hr) (lt_irrefl _))
  have hnone : st.rows.find? (fun r => decide (r.token =
      (⟨.HS256, ⟨formatInt uid, some (now + tokenTTL), some now, jti⟩,
        secret⟩ : SignedJWT))) = none :=
    List.find?_eq_none.mpr (by simpa using List.any_eq_false.mp hfresh)
  constructor
  · simp only [handleLogOut, TokenStore.getByToken, hfind, TokenStore.deleteByID]
    rw [List.filter_append, hkeep]
    simp
  have hparse : parseJwt
      (⟨.HS256, ⟨formatInt uid, some (now + tokenTTL), some now, jti⟩,
        secret⟩ : SignedJWT) secret now' =
      some ⟨formatInt uid, some (now + tokenTTL), some now, jti⟩ := by
    simp [parseJwt, JwtAlg.isHMAC, hlive']
  constructor
  · simp [hparse]
  · simp only [authMiddleware, hparse, TokenStore.getByToken, hnone,
      parseInt64_formatInt_pos uid h0 hmax, decide_eq_true_eq]
    rw [if_neg (show ¬ now' > now + tokenTTL by omega),
      if_neg (show ¬ uid = 0 by omega)]

/-- Witness for C1 at a concrete input: issue for user 7 at time 0, log out,
then validate at time 1; logout succeeds and validation is rejected
although the signature and the embedded expiry still verify at time 1. -/
theorem c1_revoke_then_validate_fails_witness :
    handleLogOut
      ⟨[⟨1, 7, ⟨.HS256, ⟨formatInt 7, some (0 + tokenTTL), some 0, "j"⟩, "k"⟩,
        0 + tokenTTL⟩], 2⟩
      (some ⟨.HS256, ⟨formatInt 7, some (0 + tokenTTL), some 0, "j"⟩, "k"⟩) =
      (.ok msgLogoutOk, ⟨[], 2⟩) ∧
    (parseJwt ⟨.HS256, ⟨formatInt 7, some (0 + tokenTTL), some 0, "j"⟩, "k"⟩
      "k" 1).isSome = true ∧
    authMiddleware ⟨[], 2⟩ "k"
      ⟨.HS256, ⟨formatInt 7, some (0 + tokenTTL), some 0, "j"⟩, "k"⟩ 1 =
      .httpError 401 msgInvalidToken := by
  have h := c1_revoke_then_validate_fails ⟨[], 1⟩ 7 "k" 0 "j"
    ⟨⟨.HS256, ⟨formatInt 7, some (0 + tokenTTL), some 0, "j"⟩, "k"⟩, 0 + tokenTTL,
      ⟨[⟨1, 7, ⟨.HS256, ⟨formatInt 7, some (0 + tokenTTL), some 0, "j"⟩, "k"⟩,
        0 + tokenTTL⟩], 2⟩⟩
    (by simp) (by rfl) (by decide) (by decide) 1 (by decide)
  exact h

theorem parseJwt_some_eq (tok : SignedJWT) (secret : String) (now : Int)
    (c : JwtClaims) (h : parseJwt tok secret now = some c) : c = tok.claims := by
  unfold parseJwt at h
  split at h
  · exact absurd h (by simp)
  · split at h
    · exact absurd h (by simp)
    · split at h
      · split at h
        · exact (Option.some.injEq _ _ ▸ h).symm
        · exact absurd h (by simp)
      · exact (Option.some.injEq _ _ ▸ h).symm

/-- C3 (amended): the middleware never derives an identity from a token whose
subject claim is non-numeric or parses to zero. (The Go check is
`err != nil || userID == 0`, so a negative integer subject is NOT rejected;
see the counterexample.) -/
theorem c3_subject_check (st : TokenStore) (secret : String)
    (tok : SignedJWT) (now : Int)
    (hsub : parseInt64 tok.claims.subject = none ∨
      parseInt64 tok.claims.subject = some 0) :
    ∀ uid, authMiddleware st secret tok now ≠ .authed uid := by
  intro uid hcontra
  unfold authMiddleware at hcontra
  split at hcontra
  · exact absurd hcontra (by simp)
  · rename_i claims hp
    have hc := parseJwt_some_eq tok secret now claims hp
    subst hc
    split at hcontra
    · exact absurd hcontra (by simp)
    · split at hcontra
      · exact absurd hcontra (by simp)
      · rename_i v hs
        rcases hsub with h1 | h1
        · rw [h1] at hs; cases hs
        · rw [h1] at hs
          injection hs with hv
          subst hv
          simp at hcontra

/-- Witness for C3's amended theorem: a token whose subject is the
non-numeric string "x" is never authenticated. -/
theorem c3_subject_check_witness :
    authMiddleware ⟨[], 1⟩ "k"
      ⟨.HS256, ⟨"x", some tokenTTL, some 0, "j"⟩, "k"⟩ 0 ≠ .authed 5 :=
  c3_subject_check ⟨[], 1⟩ "k"
    ⟨.HS256, ⟨"x", some tokenTTL, some 0, "j"⟩, "k"⟩ 0 (Or.inl (by decide)) 5

/-- Counterexample for C3 as stated: a token whose subject is the negative
integer "-1", with a matching unexpired store row, is accepted by the
middleware and the negative identity -1 is derived — the subject check
`err != nil || userID == 0` does not reject negative integers. -/
theorem c3_counterexample :
    authMiddleware
      ⟨[⟨1, -1, ⟨.HS256, ⟨formatInt (-1), some tokenTTL, some 0, "j"⟩, "k"⟩,
        tokenTTL⟩], 2⟩
      "k" ⟨.HS256, ⟨formatInt (-1), some tokenTTL, some 0, "j"⟩, "k"⟩ 0 =
      .authed (-1) := by decide

/-- Row of the `users` table (entity.User). -/
structure User where
  id : Int
  username : GoStr
  email : GoStr
  password : GoStr
  profilePicture : Option GoStr
  createdAt : Int
deriving DecidableEq

/-- Symbolic model of `bcrypt.GenerateFromPassword`: an injective tagging of
the password (the salt/cost structure of real bcrypt is irrelevant to the
control flow being verified). -/
def bcryptHash (pw : GoStr) : GoStr := goStr "bcrypt$" ++ pw

/-- Symbolic model of `bcrypt.CompareHashAndPassword`: succeeds exactly when
the stored hash was generated from the supplied password. -/
def bcryptCompare (hash pw : GoStr) : Bool := hash == bcryptHash pw

/-- Model of the login payload (LoginRequest): `""` (here `[]`) marks an
omitted field. -/
structure LoginRequest where
  username : GoStr
  email : GoStr
  password : GoStr

/-- The identifier lookup of `HandleLogin`: `GetByEmail` when an email was
supplied, otherwise `GetByUsername`; `none` is `sql.ErrNoRows`. -/
def lookupLoginUser (db : List User) (req : LoginRequest) : Option User :=
  if req.email ≠ [] then db.find? (fun u => u.email == req.email)
  else db.find? (fun u => u.username == req.username)

def msgPasswordRequired : String := "password is required"
def msgIdentifierRequired : String := "email or username is required"
def msgInvalidCredentials : String := "invalid credentials"
def msgFailedCreateToken : String := "failed to create token"

/-- Model of `HandleLogin` (auth_handler.go): validate presence of password
and of an identifier, fetch the user by email or username, compare the
bcrypt hash, then issue a token. Both the missing-user path and the
wrong-password path answer 401 UNAUTHORIZED "invalid credentials". -/
def handleLogin (db : List User) (ts : TokenStore) (secret : String)
    (now : Int) (jti : String) (req : LoginRequest) :
    (Except (ErrKind × String) (User × SignedJWT)) × TokenStore :=
  if req.password = [] then (.error (.validation, msgPasswordRequired), ts)
  else if req.email = [] ∧ req.username = [] then
    (.error (.validation, msgIdentifierRequired), ts)
  else
    match lookupLoginUser db req with
    | none => (.error (.unauthorized, msgInvalidCredentials), ts)
    | some user =>
      if ¬ bcryptCompare user.password req.password then
        (.error (.unauthorized, msgInvalidCredentials), ts)
      else
        match createToken ts user.id secret now jti with
        | .ok res => (.ok (user, res.token), res.store)
        | .error _ => (.error (.internal, msgFailedCreateToken), ts)

/-- C4: for every login request that reaches the credential check, the
observable failure is the identical pair (UNAUTHORIZED, "invalid
credentials") whether the identifier matches no user or the identifier
matches a user whose password hash comparison fails — the two causes are
indistinguishable to the caller, and the token store is untouched. -/
theorem c4_login_indistinguishable (db : List User) (ts : TokenStore)
    (secret : String) (now : Int) (jti : String) (req : LoginRequest)
    (hpw : req.password ≠ [])
    (hid : ¬ (req.email = [] ∧ req.username = []))
    (hfail : lookupLoginUser db req = none ∨
      ∃ u, lookupLoginUser db req = some u ∧
        bcryptCompare u.password req.password = false) :
    handleLogin db ts secret now jti req =
      (.error (.unauthorized, msgInvalidCredentials), ts) := by
  unfold handleLogin
  rw [if_neg hpw, if_neg hid]
  rcases hfail with h1 | ⟨u, h1, h2⟩
  · rw [h1]
  · rw [h1]
    simp [h2]

/-- Witness for C4 at concrete inputs: an unknown email and a known email
with a wrong password produce the very same failure value. -/
theorem c4_login_indistinguishable_witness :
    handleLogin [⟨1, goStr "alice", goStr "a@b.c", bcryptHash (goStr "hunter22"),
        none, 0⟩] ⟨[], 1⟩ "k" 0 "j"
      ⟨[], goStr "z@b.c", goStr "hunter22"⟩ =
      (.error (.unauthorized, msgInvalidCredentials), ⟨[], 1⟩) ∧
    handleLogin [⟨1, goStr "alice", goStr "a@b.c", bcryptHash (goStr "hunter22"),
        none, 0⟩] ⟨[], 1⟩ "k" 0 "j"
      ⟨[], goStr "a@b.c", goStr "wrongpass"⟩ =
      (.error (.unauthorized, msgInvalidCredentials), ⟨[], 1⟩) := by
  constructor
  · exact c4_login_indistinguishable _ _ _ _ _ _ (by decide) (by decide)
      (Or.inl (by decide))
  · exact c4_login_indistinguishable _ _ _ _ _ _ (by decide) (by decide)
      (Or.inr ⟨⟨1, goStr "alice", goStr "a@b.c", bcryptHash (goStr "hunter22"),
        none, 0⟩, by decide, by decide⟩)

/-- Model of `isValidEmail` (auth_handler.go): the byte loop setting `at`
on `'@'` and `dot` on a `'.'` seen while `at` already holds (the update of
`at` happens before the dot test of the same byte, as in the Go body). -/
def isValidEmailLoop : GoStr → Bool → Bool → Bool
  | [], atSeen, dotSeen => atSeen && dotSeen
  | c :: rest, atSeen, dotSeen =>
    isValidEmailLoop rest (atSeen || c == 64) ((atSeen || c == 64) && c == 46 || dotSeen)

def isValidEmail (email : GoStr) : Bool := isValidEmailLoop email false false

/-- Bytes of the Postgres unique-violation message the driver surfaces on a
duplicate username/email insert. -/
def usersDupErr : GoStr := goStr "pq: duplicate key value violates unique constraint"

/-- Model of `isDuplicateError` (auth_handler.go): substring tests for
"duplicate", "unique" and the Postgres code "23505" on the error text. -/
def isDuplicateError (err : GoStr) : Bool :=
  contains err (goStr "duplicate") || contains err (goStr "unique") ||
    contains err (goStr "23505")

/-- The `users` table: rows plus the `BIGSERIAL` sequence value. -/
structure UsersTable where
  rows : List User
  nextId : Int
deriving DecidableEq

/-- Model of `UserRepository.Create`: `INSERT INTO users ... RETURNING
user_id, created_at`; the UNIQUE columns on username and email make a
clashing insert fail with the driver's duplicate-key error. -/
def UsersTable.create (st : UsersTable) (username email password : GoStr)
    (now : Int) : Except GoStr (User × UsersTable) :=
  if st.rows.any (fun u => u.username == username || u.email == email) then
    .error usersDupErr
  else
    .ok (⟨st.nextId, username, email, password, none, now⟩,
      ⟨st.rows ++ [⟨st.nextId, username, email, password, none, now⟩],
        st.nextId + 1⟩)

/-- Model of the registration payload (RegisterRequest). -/
structure RegisterRequest where
  username : GoStr
  email : GoStr
  password : GoStr

def msgFieldsRequired : String := "username, email, and password are required"
def msgInvalidEmail : String := "invalid email format"
def msgPasswordTooShort : String := "password must be at least 8 characters"
def msgEmailOrUsernameExists : String := "email or username already exists"
def msgFailedCreateUser : String := "failed to create user"

/-- Model of `HandleRegister` (auth_handler.go): presence checks, email
format check, password length check, bcrypt hash, user insert (duplicate
errors become 409 CONFLICT), then token issuance. Note the user row
survives even if token creation fails, as in the Go code. -/
def handleRegister (ust : UsersTable) (ts : TokenStore) (secret : String)
    (now : Int) (jti : String) (req : RegisterRequest) :
    (Except (ErrKind × String) (User × SignedJWT)) × UsersTable × TokenStore :=
  if req.username = [] ∨ req.email = [] ∨ req.password = [] then
    (.error (.validation, msgFieldsRequired), ust, ts)
  else if ¬ isValidEmail req.email then
    (.error (.validation, msgInvalidEmail), ust, ts)
  else if req.password.length < 8 then
    (.error (.validation, msgPasswordTooShort), ust, ts)
  else
    match ust.create req.username req.email (bcryptHash req.password) now with
    | .error e =>
      if isDuplicateError e then
        (.error (.conflict, msgEmailOrUsernameExists), ust, ts)
      else (.error (.internal, msgFailedCreateUser), ust, ts)
    | .ok (user, ust') =>
      match createToken ts user.id secret now jti with
      | .ok res => (.ok (user, res.token), ust', res.store)
      | .error _ => (.error (.internal, msgFailedCreateToken), ust', ts)

theorem isValidEmail_ne_nil (email : GoStr) (h : isValidEmail email = true) :
    email ≠ [] := by
  intro he
  rw [he] at h
  exact absurd h (by decide)

/-- C9 (amended: the username must additionally be nonempty — see the
counterexample): with a well-formed email, a password of length at least 8
and a nonempty username, registration against a store without that username
or email succeeds, creating exactly one user and returning a token; a
second registration reusing the username or the email fails with 409
CONFLICT and changes nothing; and any request whose email fails the format
check or whose password is shorter than 8 fails with a 422 VALIDATION error
and creates no user. -/
theorem c9_registration (ust : UsersTable) (ts : TokenStore) (secret : String)
    (now : Int) (jti : String) (req : RegisterRequest) (tres : IssueResult)
    (hU : req.username ≠ [])
    (hE : isValidEmail req.email = true)
    (hP : 8 ≤ req.password.length)
    (hfresh : ust.rows.any
      (fun u => u.username == req.username || u.email == req.email) = false)
    (htok : createToken ts ust.nextId secret now jti = .ok tres) :
    handleRegister ust ts secret now jti req =
      (.ok (⟨ust.nextId, req.username, req.email, bcryptHash req.password,
          none, now⟩, tres.token),
        ⟨ust.rows ++ [⟨ust.nextId, req.username, req.email,
          bcryptHash req.password, none, now⟩], ust.nextId + 1⟩, tres.store) ∧
    (∀ req₂ : RegisterRequest, req₂.username ≠ [] →
      isValidEmail req₂.email = true → 8 ≤ req₂.password.length →
      (req₂.username = req.username ∨ req₂.email = req.email) →
      ∀ ts₂ : TokenStore, ∀ now₂ : Int, ∀ jti₂ : String,
        handleRegister
          ⟨ust.rows ++ [⟨ust.nextId, req.username, req.email,
            bcryptHash req.password, none, now⟩], ust.nextId + 1⟩
          ts₂ secret now₂ jti₂ req₂ =
        (.error (.conflict, msgEmailOrUsernameExists),
          ⟨ust.rows ++ [⟨ust.nextId, req.username, req.email,
            bcryptHash req.password, none, now⟩], ust.nextId + 1⟩, ts₂)) ∧
    (∀ (ust₂ : UsersTable) (ts₂ : TokenStore) (req₂ : RegisterRequest),
      isValidEmail req₂.email = false ∨ req₂.password.length < 8 →
      ∃ m, handleRegister ust₂ ts₂ secret now jti req₂ =
        (.error (.validation, m), ust₂, ts₂)) := by
  have hEnil := isValidEmail_ne_nil req.email hE
  have hPnil : req.password ≠ [] := by
    intro he; rw [he] at hP; exact absurd hP (by decide)
  refine ⟨?_, ?_, ?_⟩
  · unfold handleRegister
    rw [if_neg (by push_neg; exact ⟨hU, hEnil, hPnil⟩),
      if_neg (by simp [hE]), if_neg (by omega)]
    unfold UsersTable.create
    rw [if_neg (by simp [hfresh])]
    simp [htok]
  · intro req₂ hU₂ hE₂ hP₂ hdup ts₂ now₂ jti₂
    have hEnil₂ := isValidEmail_ne_nil req₂.email hE₂
    have hPnil₂ : req₂.password ≠ [] := by
      intro he; rw [he] at hP₂; exact absurd hP₂ (by decide)
    have hdupOK : isDuplicateError usersDupErr = true := by decide
    unfold handleRegister
    rw [if_neg (by push_neg; exact ⟨hU₂, hEnil₂, hPnil₂⟩),
      if_neg (by simp [hE₂]), if_neg (by omega)]
    unfold UsersTable.create
    rw [if_pos ?hit]
    case hit =>
      rw [List.any_append, Bool.or_eq_true]
      right
      rcases hdup with hd | hd
      · simp [hd]
      · simp [hd]
    simp [hdupOK]
  · intro ust₂ ts₂ req₂ hbad
    unfold handleRegister
    by_cases h1 : req₂.username = [] ∨ req₂.email = [] ∨ req₂.password = []
    · rw [if_pos h1]; exact ⟨msgFieldsRequired, rfl⟩
    · rw [if_neg h1]
      by_cases h2 : isValidEmail req₂.email = true
      · rw [if_neg (by simp [h2])]
        have h3 : req₂.password.length < 8 := by
          rcases hbad with hb | hb
          · rw [h2] at hb; cases hb
          · exact hb
        rw [if_pos h3]
        exact ⟨msgPasswordTooShort, rfl⟩
      · rw [if_pos (by simpa using h2)]
        exact ⟨msgInvalidEmail, rfl⟩

/-- Witness for C9 at concrete inputs: registering "alice" against empty
stores succeeds with one user row and a token. -/
theorem c9_registration_witness :
    handleRegister ⟨[], 1⟩ ⟨[], 1⟩ "k" 0 "j"
      ⟨goStr "alice", goStr "a@b.c", goStr "12345678"⟩ =
      (.ok (⟨1, goStr "alice", goStr "a@b.c", bcryptHash (goStr "12345678"),
          none, 0⟩,
        ⟨.HS256, ⟨formatInt 1, some (0 + tokenTTL), some 0, "j"⟩, "k"⟩),
        ⟨[⟨1, goStr "alice", goStr "a@b.c", bcryptHash (goStr "12345678"),
          none, 0⟩], 1 + 1⟩,
        ⟨[⟨1, 1, ⟨.HS256, ⟨formatInt 1, some (0 + tokenTTL), some 0, "j"⟩, "k"⟩,
          0 + tokenTTL⟩], 2⟩) := by
  have h := c9_registration ⟨[], 1⟩ ⟨[], 1⟩ "k" 0 "j"
    ⟨goStr "alice", goStr "a@b.c", goStr "12345678"⟩
    ⟨⟨.HS256, ⟨formatInt 1, some (0 + tokenTTL), some 0, "j"⟩, "k"⟩, 0 + tokenTTL,
      ⟨[⟨1, 1, ⟨.HS256, ⟨formatInt 1, some (0 + tokenTTL), some 0, "j"⟩, "k"⟩,
        0 + tokenTTL⟩], 2⟩⟩
    (by decide) (by decide) (by decide) (by decide) (by rfl)
  exact h.1

/-- Counterexample for C9 as stated: the triple (username = "", email =
"a@b.c", password = "12345678") satisfies the claim's email and password
conditions, yet registration does not succeed — it fails with the 422
VALIDATION "required fields" error because the username is empty. -/
theorem c9_counterexample :
    (handleRegister ⟨[], 1⟩ ⟨[], 1⟩ "k" 0 "j"
      ⟨[], goStr "a@b.c", goStr "12345678"⟩).1 =
      .error (.validation, msgFieldsRequired) ∧
    isValidEmail (goStr "a@b.c") = true ∧
    8 ≤ (goStr "12345678").length := by
  refine ⟨rfl, by decide, by decide⟩

/-- Row of the `reactions` table (entity.Reaction). -/
structure Reaction where
  id : Int
  postID : Int
  ownerID : Int
  reactionTypeID : Int
deriving DecidableEq

/-- The conflict key of `reactions_unique_owner_post UNIQUE (post_id,
owner_id)`. -/
def reactionKey (postID ownerID : Int) (r : Reaction) : Bool :=
  r.postID == postID && r.ownerID == ownerID

/-- The `reactions` table: rows plus the `BIGSERIAL` sequence value. -/
structure ReactionsTable where
  rows : List Reaction
  nextId : Int
deriving DecidableEq

/-- Model of `ReactionRepository.Upsert`: `INSERT ... ON CONFLICT (post_id,
owner_id) DO UPDATE SET reaction_type_id = EXCLUDED.reaction_type_id
RETURNING reaction_id` — a conflicting row keeps its id and position and
only its reaction_type_id changes; otherwise a fresh row is appended. The
returned record is the caller's record with its ID scanned back. -/
def ReactionsTable.upsert (st : ReactionsTable) (postID ownerID typeID : Int) :
    Reaction × ReactionsTable :=
  match st.rows.find? (reactionKey postID ownerID) with
  | some r0 =>
    (⟨r0.id, postID, ownerID, typeID⟩,
      ⟨st.rows.map (fun r =>
        if reactionKey postID ownerID r then { r with reactionTypeID := typeID }
        else r), st.nextId⟩)
  | none =>
    (⟨st.nextId, postID, ownerID, typeID⟩,
      ⟨st.rows ++ [⟨st.nextId, postID, ownerID, typeID⟩], st.nextId + 1⟩)

/-- Model of `ReactionRepository.CountByPost`: `SELECT COUNT(*) FROM
reactions WHERE post_id = $1`. -/
def ReactionsTable.countByPost (st : ReactionsTable) (postID : Int) : Nat :=
  (st.rows.filter (fun r => r.postID == postID)).length

/-- Model of `ReactionRepository.GetByOwnerAndPost`: `SELECT ... WHERE
owner_id = $1 AND post_id = $2`; `none` is `sql.ErrNoRows`. -/
def ReactionsTable.getByOwnerAndPost (st : ReactionsTable)
    (ownerID postID : Int) : Option Reaction :=
  st.rows.find? (fun r => r.ownerID == ownerID && r.postID == postID)

theorem filter_length_map_of_pred_eq {α : Type} (f : α → α) (p : α → Bool)
    (l : List α) (h : ∀ x, p (f x) = p x) :
    ((l.map f).filter p).length = (l.filter p).length := by
  induction l with
  | nil => rfl
  | cons a t ih =>
    simp only [List.map_cons, List.filter_cons, h a]
    cases p a <;> simp [ih]

theorem find?_map_of_pred_eq {α : Type} (f : α → α) (p : α → Bool)
    (l : List α) (h : ∀ x, p (f x) = p x) :
    (l.map f).find? p = (l.find? p).map f := by
  induction l with
  | nil => rfl
  | cons a t ih =>
    simp only [List.map_cons, List.find?_cons, h a]
    cases hpa : p a <;> simp [ih]

theorem map_map_eq_of_eq {α β : Type} (f : α → α) (g : α → β) (l : List α)
    (h : ∀ x, g (f x) = g x) : (l.map f).map g = l.map g := by
  induction l with
  | nil => rfl
  | cons a t ih => simp only [List.map_cons, h a, ih]

theorem upsert_eq_of_find_some (st : ReactionsTable) (p o t : Int)
    (r0 : Reaction) (hf : st.rows.find? (reactionKey p o) = some r0) :
    st.upsert p o t = (⟨r0.id, p, o, t⟩,
      ⟨st.rows.map (fun r =>
        if reactionKey p o r then { r with reactionTypeID := t } else r),
        st.nextId⟩) := by
  unfold ReactionsTable.upsert
  rw [hf]

theorem upsert_eq_of_find_none (st : ReactionsTable) (p o t : Int)
    (hf : st.rows.find? (reactionKey p o) = none) :
    st.upsert p o t = (⟨st.nextId, p, o, t⟩,
      ⟨st.rows ++ [⟨st.nextId, p, o, t⟩], st.nextId + 1⟩) := by
  unfold ReactionsTable.upsert
  rw [hf]

theorem reactionKey_update_eq (p o t : Int) :
    ∀ r, reactionKey p o
      (if reactionKey p o r then { r with reactionTypeID := t } else r) =
      reactionKey p o r := by
  intro r
  by_cases hk : reactionKey p o r = true
  · rw [if_pos hk, hk]
    exact hk
  · rw [if_neg hk]

theorem upsert_pairCount_le (st : ReactionsTable) (p o t : Int)
    (h : (st.rows.filter (reactionKey p o)).length ≤ 1) :
    (((st.upsert p o t).2).rows.filter (reactionKey p o)).length ≤ 1 := by
  cases hf : st.rows.find? (reactionKey p o) with
  | some r0 =>
    rw [upsert_eq_of_find_some st p o t r0 hf]
    simpa [filter_length_map_of_pred_eq _ _ _ (reactionKey_update_eq p o t)]
      using h
  | none =>
    rw [upsert_eq_of_find_none st p o t hf]
    have hemp : st.rows.filter (reactionKey p o) = [] :=
      List.filter_eq_nil_iff.mpr (fun r hr => by
        simpa using List.find?_eq_none.mp hf r hr)
    simp [List.filter_append, hemp, reactionKey]

/-- C5: after any sequence of Upserts by one actor on one post, at most one
reaction row exists for the pair; when a row for the pair exists, a further
Upsert with another type returns a record with the existing row's id,
preserves every row identity (no insert), leaves rows of other pairs
untouched, rewrites only the pair row's reaction_type, and leaves
CountByTarget unchanged for every target. -/
theorem c5_reaction_upsert (st : ReactionsTable) (p o : Int)
    (hinv : (st.rows.filter (reactionKey p o)).length ≤ 1) :
    (∀ types : List Int,
      (((types.foldl (fun s t => (s.upsert p o t).2) st).rows.filter
        (reactionKey p o)).length) ≤ 1) ∧
    (∀ r0 t', st.rows.find? (reactionKey p o) = some r0 →
      (st.upsert p o t').1 = ⟨r0.id, p, o, t'⟩ ∧
      (st.upsert p o t').2.rows.map (fun r => r.id) =
        st.rows.map (fun r => r.id) ∧
      (st.upsert p o t').2.rows.find? (reactionKey p o) =
        some ⟨r0.id, p, o, t'⟩ ∧
      (∀ r ∈ st.rows, reactionKey p o r = false →
        r ∈ (st.upsert p o t').2.rows) ∧
      (∀ q, (st.upsert p o t').2.countByPost q = st.countByPost q)) := by
  constructor
  · intro types
    induction types generalizing st with
    | nil => exact hinv
    | cons t ts ih =>
      exact ih _ (upsert_pairCount_le st p o t hinv)
  · intro r0 t' hf
    have hkey : reactionKey p o r0 = true := List.find?_some hf
    have hpo : r0.postID = p ∧ r0.ownerID = o := by
      have := hkey
      unfold reactionKey at this
      simp only [Bool.and_eq_true, beq_iff_eq] at this
      exact this
    rw [upsert_eq_of_find_some st p o t' r0 hf]
    refine ⟨rfl, ?_, ?_, ?_, ?_⟩
    · exact map_map_eq_of_eq _ _ _ (fun r => by
        by_cases hk : reactionKey p o r = true
        · rw [if_pos hk]
        · rw [if_neg hk])
    · rw [find?_map_of_pred_eq _ _ _ (reactionKey_update_eq p o t'), hf]
      obtain ⟨r0id, r0p, r0o, r0t⟩ := r0
      obtain ⟨hp1, hp2⟩ := hpo
      subst hp1
      subst hp2
      simp [reactionKey]
    · intro r hr hk
      exact List.mem_map.mpr ⟨r, hr, by rw [if_neg (by simp [hk])]⟩
    · intro q
      unfold ReactionsTable.countByPost
      exact filter_length_map_of_pred_eq _ _ _ (fun r => by
        by_cases hk : reactionKey p o r = true
        · rw [if_pos hk]
        · rw [if_neg hk])

/-- Witness for C5 at concrete inputs: actor 5 reacts to post 10 with type 1
then type 2; the second upsert keeps the row id, leaves exactly one row for
the pair and leaves CountByTarget at 1. -/
theorem c5_reaction_upsert_witness :
    (((⟨[⟨1, 10, 5, 1⟩], 2⟩ : ReactionsTable).upsert 10 5 2).1 = ⟨1, 10, 5, 2⟩ ∧
      ((⟨[⟨1, 10, 5, 1⟩], 2⟩ : ReactionsTable).upsert 10 5 2).2.countByPost 10 =
        (⟨[⟨1, 10, 5, 1⟩], 2⟩ : ReactionsTable).countByPost 10) ∧
    (([2, 1, 2].foldl (fun s t => (s.upsert 10 5 t).2)
      (⟨[], 1⟩ : ReactionsTable)).rows.filter (reactionKey 10 5)).length ≤ 1 := by
  constructor
  · have h := (c5_reaction_upsert ⟨[⟨1, 10, 5, 1⟩], 2⟩ 10 5 (by decide)).2
      ⟨1, 10, 5, 1⟩ 2 (by decide)
    exact ⟨h.1, h.2.2.2.2 10⟩
  · exact (c5_reaction_upsert ⟨[], 1⟩ 10 5 (by decide)).1 [2, 1, 2]

/-- Row of the `memberships` table (entity.Membership). -/
structure Membership where
  id : Int
  categoryID : Int
  userID : Int
  joinedDate : Int
deriving DecidableEq

/-- The conflict key of `memberships_unique_user_category UNIQUE
(category_id, user_id)`. -/
def membershipKey (categoryID userID : Int) (m : Membership) : Bool :=
  m.categoryID == categoryID && m.userID == userID

/-- The `memberships` table: rows plus the `BIGSERIAL` sequence value. -/
structure MembershipsTable where
  rows : List Membership
  nextId : Int
deriving DecidableEq

/-- Model of `MembershipRepository.Create`: `INSERT ... ON CONFLICT
(category_id, user_id) DO NOTHING RETURNING membership_id, joined_date`.
On conflict no row comes back (`sql.ErrNoRows` from Scan), which the Go
code treats as success returning the caller's record unchanged; otherwise
the fresh row's id and joined_date are scanned into the record. -/
def MembershipsTable.create (st : MembershipsTable) (m : Membership)
    (now : Int) : Membership × MembershipsTable :=
  if st.rows.any (membershipKey m.categoryID m.userID) then (m, st)
  else
    ({ m with id := st.nextId, joinedDate := now },
      ⟨st.rows ++ [{ m with id := st.nextId, joinedDate := now }],
        st.nextId + 1⟩)

/-- C8 (amended: the duplicate call is a no-op success, but it returns the
caller's input record unchanged, NOT the stored membership row — see the
counterexample): a second Create for an existing (user, category) pair
changes nothing and errors nowhere, and after any Create exactly one row
exists for the pair (given the unique-index invariant held before). -/
theorem c8_membership_create (st : MembershipsTable) (m : Membership)
    (now : Int)
    (hinv : (st.rows.filter (membershipKey m.categoryID m.userID)).length ≤ 1) :
    (st.rows.any (membershipKey m.categoryID m.userID) = true →
      st.create m now = (m, st)) ∧
    (((st.create m now).2).rows.filter
      (membershipKey m.categoryID m.userID)).length = 1 := by
  unfold MembershipsTable.create
  cases hb : st.rows.any (membershipKey m.categoryID m.userID) with
  | true =>
    rw [if_pos rfl]
    refine ⟨fun _ => rfl, ?_⟩
    obtain ⟨x, hx, hpx⟩ := List.any_eq_true.mp hb
    have hmem : x ∈ st.rows.filter (membershipKey m.categoryID m.userID) :=
      List.mem_filter.mpr ⟨hx, hpx⟩
    have hpos : 0 < (st.rows.filter (membershipKey m.categoryID m.userID)).length :=
      List.length_pos.mpr (List.ne_nil_of_mem hmem)
    show (st.rows.filter (membershipKey m.categoryID m.userID)).length = 1
    omega
  | false =>
    rw [if_neg (by simp)]
    refine ⟨fun hc => absurd hc (by simp), ?_⟩
    have hemp : st.rows.filter (membershipKey m.categoryID m.userID) = [] :=
      List.filter_eq_nil_iff.mpr (fun r hr => by
        simpa using (List.any_eq_false.mp hb) r hr)
    simp [List.filter_append, hemp, membershipKey]

/-- Witness for C8's amended theorem at concrete inputs: subscribing user 1
to category 2 twice leaves exactly one row for the pair, and the second
call returns its input with the table unchanged. -/
theorem c8_membership_create_witness :
    (⟨[⟨1, 2, 1, 5⟩], 2⟩ : MembershipsTable).create ⟨0, 2, 1, 0⟩ 6 =
      (⟨0, 2, 1, 0⟩, ⟨[⟨1, 2, 1, 5⟩], 2⟩) ∧
    ((((⟨[⟨1, 2, 1, 5⟩], 2⟩ : MembershipsTable).create ⟨0, 2, 1, 0⟩ 6).2).rows.filter
      (membershipKey 2 1)).length = 1 := by
  have h := c8_membership_create ⟨[⟨1, 2, 1, 5⟩], 2⟩ ⟨0, 2, 1, 0⟩ 6 (by decide)
  exact ⟨h.1 (by decide), h.2⟩

/-- Counterexample for C8 as stated: starting from an empty table,
Subscribe(user=1, category=2) inserts row id 1; the second Create for the
same pair succeeds as a no-op but returns the caller's input record
(id 0, zero joined_date) — not the existing membership row (id 1). -/
theorem c8_counterexample :
    ((⟨[], 1⟩ : MembershipsTable).create ⟨0, 2, 1, 0⟩ 5).2 =
      ⟨[⟨1, 2, 1, 5⟩], 2⟩ ∧
    (⟨[⟨1, 2, 1, 5⟩], 2⟩ : MembershipsTable).rows.find? (membershipKey 2 1) =
      some ⟨1, 2, 1, 5⟩ ∧
    ((⟨[⟨1, 2, 1, 5⟩], 2⟩ : MembershipsTable).create ⟨0, 2, 1, 0⟩ 6).1 =
      ⟨0, 2, 1, 0⟩ ∧
    ((⟨[⟨1, 2, 1, 5⟩], 2⟩ : MembershipsTable).create ⟨0, 2, 1, 0⟩ 6).1 ≠
      ⟨1, 2, 1, 5⟩ := by decide

/-- Row of the `notifications` table (entity.Notification); `status` is the
read flag (`TRUE` = read, default `FALSE` = unread). -/
structure Notification where
  id : Int
  ownerID : Int
  actorID : Int
  componentType : String
  componentID : Int
  notificationType : String
  status : Bool
  createdAt : Int
deriving DecidableEq

/-- The `notifications` table. -/
structure NotificationsTable where
  rows : List Notification
deriving DecidableEq

/-- Per-row effect of `UPDATE notifications SET status = $v WHERE
notification_id = $id` (rows with another id are untouched). -/
def setStatusFn (id : Int) (v : Bool) (n : Notification) : Notification :=
  if n.id == id then { n with status := v } else n

/-- Model of `NotificationRepository.MarkRead`: `UPDATE notifications SET
status = TRUE WHERE notification_id = $1`; zero rows affected is
`sql.ErrNoRows` (and then no row matched, so the table is unchanged). -/
def NotificationsTable.markRead (st : NotificationsTable) (id : Int) :
    Except Unit NotificationsTable :=
  if st.rows.any (fun n => n.id == id) then
    .ok ⟨st.rows.map (setStatusFn id true)⟩
  else .error ()

/-- Model of `NotificationRepository.MarkUnread`: `UPDATE notifications SET
status = FALSE WHERE notification_id = $1`; zero rows affected is
`sql.ErrNoRows`. -/
def NotificationsTable.markUnread (st : NotificationsTable) (id : Int) :
    Except Unit NotificationsTable :=
  if st.rows.any (fun n => n.id == id) then
    .ok ⟨st.rows.map (setStatusFn id false)⟩
  else .error ()

theorem setStatusFn_id (id : Int) (v : Bool) (n : Notification) :
    (setStatusFn id v n).id = n.id := by
  unfold setStatusFn
  split <;> rfl

theorem setStatusFn_comp (id : Int) (v w : Bool) (n : Notification) :
    setStatusFn id v (setStatusFn id w n) = setStatusFn id v n := by
  unfold setStatusFn
  by_cases h : (n.id == id) = true
  · simp [h]
  · simp [h]

theorem any_map_of_pred_eq {α : Type} (f : α → α) (p : α → Bool) (l : List α)
    (h : ∀ x, p (f x) = p x) : (l.map f).any p = l.any p := by
  induction l with
  | nil => rfl
  | cons a t ih => simp only [List.map_cons, List.any_cons, h a, ih]

theorem map_setStatusFn_status (id : Int) (v : Bool) (l : List Notification) :
    ∀ n ∈ l.map (setStatusFn id v), n.id = id → n.status = v := by
  intro n hn hid
  obtain ⟨x, hx, hfx⟩ := List.mem_map.mp hn
  unfold setStatusFn at hfx
  by_cases h : (x.id == id) = true
  · rw [if_pos h] at hfx
    rw [← hfx]
  · rw [if_neg h] at hfx
    subst hfx
    exact absurd (beq_iff_eq.mpr hid) h

theorem map_setStatusFn_other (id : Int) (v : Bool) (l : List Notification) :
    ∀ n ∈ l.map (setStatusFn id v), ¬ n.id = id → n ∈ l := by
  intro n hn hid
  obtain ⟨x, hx, hfx⟩ := List.mem_map.mp hn
  unfold setStatusFn at hfx
  by_cases h : (x.id == id) = true
  · rw [if_pos h] at hfx
    have hnx : n.id = x.id := by rw [← hfx]
    exact absurd (hnx.trans (beq_iff_eq.mp h)) hid
  · rw [if_neg h] at hfx
    exact hfx ▸ hx

/-- C6: MarkRead and MarkUnread fail with NotFound exactly when no
notification with the id exists; on an existing notification they set its
status to read resp. unread without touching other rows, repeating either
operation is a no-op success, and the sequence MarkRead, MarkUnread,
MarkRead succeeds at every step and ends with the notification read. -/
theorem c6_notification_marking (st : NotificationsTable) (id : Int) :
    (st.markRead id = .error () ↔ ∀ n ∈ st.rows, ¬ n.id = id) ∧
    (st.markUnread id = .error () ↔ ∀ n ∈ st.rows, ¬ n.id = id) ∧
    ((∃ n, n ∈ st.rows ∧ n.id = id) →
      ∃ st₁ st₂ st₃,
        st.markRead id = .ok st₁ ∧ st₁.markRead id = .ok st₁ ∧
        st₁.markUnread id = .ok st₂ ∧ st₂.markUnread id = .ok st₂ ∧
        st₂.markRead id = .ok st₃ ∧
        (∀ n ∈ st₁.rows, n.id = id → n.status = true) ∧
        (∀ n ∈ st₂.rows, n.id = id → n.status = false) ∧
        (∀ n ∈ st₃.rows, n.id = id → n.status = true) ∧
        (∀ n ∈ st₃.rows, ¬ n.id = id → n ∈ st.rows)) := by
  have hidpred : ∀ v : Bool, ∀ x : Notification,
      ((setStatusFn id v x).id == id) = (x.id == id) := by
    intro v x
    rw [setStatusFn_id]
  refine ⟨?_, ?_, ?_⟩
  · unfold NotificationsTable.markRead
    constructor
    · intro h
      by_cases hb : st.rows.any (fun n => n.id == id) = true
      · rw [if_pos hb] at h; cases h
      · intro n hn hid
        apply hb
        exact List.any_eq_true.mpr ⟨n, hn, by simp [hid]⟩
    · intro h
      have hfalse : st.rows.any (fun n => n.id == id) = false :=
        List.any_eq_false.mpr (fun n hn => by simpa using h n hn)
      rw [if_neg (by simp [hfalse])]
  · unfold NotificationsTable.markUnread
    constructor
    · intro h
      by_cases hb : st.rows.any (fun n => n.id == id) = true
      · rw [if_pos hb] at h; cases h
      · intro n hn hid
        apply hb
        exact List.any_eq_true.mpr ⟨n, hn, by simp [hid]⟩
    · intro h
      have hfalse : st.rows.any (fun n => n.id == id) = false :=
        List.any_eq_false.mpr (fun n hn => by simpa using h n hn)
      rw [if_neg (by simp [hfalse])]
  · rintro ⟨n, hn, hid⟩
    have hb : st.rows.any (fun n => n.id == id) = true :=
      List.any_eq_true.mpr ⟨n, hn, beq_iff_eq.mpr hid⟩
    have hb1 : (st.rows.map (setStatusFn id true)).any (fun n => n.id == id) = true := by
      rw [any_map_of_pred_eq _ _ _ (hidpred true)]; exact hb
    have hb2 : ((st.rows.map (setStatusFn id true)).map (setStatusFn id false)).any
        (fun n => n.id == id) = true := by
      rw [any_map_of_pred_eq _ _ _ (hidpred false)]; exact hb1
    refine ⟨⟨st.rows.map (setStatusFn id true)⟩,
      ⟨(st.rows.map (setStatusFn id true)).map (setStatusFn id false)⟩,
      ⟨((st.rows.map (setStatusFn id true)).map (setStatusFn id false)).map
        (setStatusFn id true)⟩, ?_, ?_, ?_, ?_, ?_, ?_, ?_, ?_, ?_⟩
    · unfold NotificationsTable.markRead
      rw [if_pos hb]
    · unfold NotificationsTable.markRead
      rw [if_pos hb1]
      congr 1
      exact congrArg NotificationsTable.mk
        (map_map_eq_of_eq _ _ _ (setStatusFn_comp id true true))
    · unfold NotificationsTable.markUnread
      rw [if_pos hb1]
    · unfold NotificationsTable.markUnread
      rw [if_pos hb2]
      congr 1
      exact congrArg NotificationsTable.mk
        (map_map_eq_of_eq _ _ _ (setStatusFn_comp id false false))
    · unfold NotificationsTable.markRead
      rw [if_pos hb2]
    · exact map_setStatusFn_status id true st.rows
    · exact map_setStatusFn_status id false _
    · exact map_setStatusFn_status id true _
    · intro x hx hxid
      exact map_setStatusFn_other id true _ x
        (map_setStatusFn_other id false _ x
          (map_setStatusFn_other id true _ x hx hxid) hxid) hxid

/-- Witness for C6 at concrete inputs: on a table holding notification 1
(unread), MarkRead of a missing id fails, and MarkRead, MarkUnread,
MarkRead of id 1 all succeed leaving it read. -/
theorem c6_notification_marking_witness :
    (⟨[⟨1, 2, 3, "post", 4, "reaction", false, 0⟩]⟩ :
      NotificationsTable).markRead 9 = .error () ∧
    (⟨[⟨1, 2, 3, "post", 4, "reaction", false, 0⟩]⟩ :
      NotificationsTable).markRead 1 =
      .ok ⟨[⟨1, 2, 3, "post", 4, "reaction", true, 0⟩]⟩ := by
  constructor
  · exact (c6_notification_marking
      ⟨[⟨1, 2, 3, "post", 4, "reaction", false, 0⟩]⟩ 9).1.mpr (by decide)
  · rfl

/-- Row of the `posts` table (entity.Post); `status` is the edited flag
(`TRUE` once updated). -/
structure Post where
  id : Int
  ownerID : Int
  categoryID : Int
  headline : GoStr
  text : Option GoStr
  image : Option GoStr
  createdAt : Int
  updatedAt : Int
  status : Bool
deriving DecidableEq

/-- The `posts` table: rows plus the `BIGSERIAL` sequence value. -/
structure PostsTable where
  rows : List Post
  nextId : Int
deriving DecidableEq

/-- Model of `PostRepository.GetByID`; `none` is `sql.ErrNoRows`. -/
def PostsTable.getByID (st : PostsTable) (id : Int) : Option Post :=
  st.rows.find? (fun p => p.id == id)

/-- Model of `PostRepository.Update`: `UPDATE posts SET headline, text,
image, status = TRUE, updated_at = NOW() WHERE post_id = $1`; zero rows
affected is `sql.ErrNoRows`. -/
def PostsTable.update (st : PostsTable) (p : Post) (now : Int) :
    Except Unit PostsTable :=
  if st.rows.any (fun r => r.id == p.id) then
    .ok ⟨st.rows.map (fun r =>
      if r.id == p.id then
        { r with
          headline := p.headline
          text := p.text
          image := p.image
          status := true
          updatedAt := now }
      else r), st.nextId⟩
  else .error ()

/-- Model of the update-post payload (UpdatePostRequest). -/
structure UpdatePostRequest where
  headline : GoStr
  text : Option GoStr
  image : Option GoStr

def msgUserNotAuthenticated : String := "user not authenticated"
def msgHeadlineRequired : String := "headline is required"
def msgPostNotFound : String := "post not found"
def msgUpdateOwnPosts : String := "you can only update your own posts"
def msgPostUpdated : String := "Post updated successfully!"
def msgFailedUpdatePost : String := "failed to update post"

/-- Model of `HandleUpdatePost` (post_handler.go): authenticated user from
context (`none` models a missing id), headline presence check, fetch by id
(404 when absent), ownership check (403 for a non-owner, before any write),
then the repository update. The table is returned unchanged on every
failure path. -/
def handleUpdatePost (st : PostsTable) (actor : Option Int) (postID : Int)
    (req : UpdatePostRequest) (now : Int) :
    (Except (ErrKind × String) String) × PostsTable :=
  match actor with
  | none => (.error (.unauthorized, msgUserNotAuthenticated), st)
  | some userID =>
    if req.headline = [] then (.error (.validation, msgHeadlineRequired), st)
    else
      match st.getByID postID with
      | none => (.error (.notFound, msgPostNotFound), st)
      | some post =>
        if ¬ post.ownerID = userID then
          (.error (.forbidden, msgUpdateOwnPosts), st)
        else
          let updated : Post :=
            { post with
              headline := req.headline
              text := req.text
              image := req.image }
          match st.update updated now with
          | .ok st' => (.ok msgPostUpdated, st')
          | .error _ => (.error (.internal, msgFailedUpdatePost), st)

/-- Row of the `comments` table (entity.Comment). -/
structure Comment where
  id : Int
  postID : Int
  ownerID : Int
  parentCommentID : Option Int
  text : GoStr
  image : Option GoStr
  createdAt : Int
  updatedAt : Int
  status : Bool
deriving DecidableEq

/-- The `comments` table: rows plus the `BIGSERIAL` sequence value. -/
structure CommentsTable where
  rows : List Comment
  nextId : Int
deriving DecidableEq

/-- Model of `CommentRepository.GetByID`; `none` is `sql.ErrNoRows`. -/
def CommentsTable.getByID (st : CommentsTable) (id : Int) : Option Comment :=
  st.rows.find? (fun c => c.id == id)

/-- Model of `CommentRepository.Delete`: `DELETE FROM comments WHERE
comment_id = $1`; zero rows affected is `sql.ErrNoRows`. -/
def CommentsTable.delete (st : CommentsTable) (id : Int) :
    Except Unit CommentsTable :=
  if (st.rows.filter (fun c => decide (¬ c.id = id))).length = st.rows.length then
    .error ()
  else .ok ⟨st.rows.filter (fun c => decide (¬ c.id = id)), st.nextId⟩

def msgUnauthorized : String := "unauthorized"
def msgCommentNotFound : String := "comment not found"
def msgCannotDeleteComment : String := "you cannot delete this comment"
def msgCommentDeleted : String := "Comment/Reply deleted successfully!"
def msgInternalDeleteComment : String := "failed to delete comment"

/-- Model of `HandleDeleteComment` (comment_handler.go): authenticated user
from context, fetch by id (404 when absent), ownership check (403 for a
non-owner, before the delete), then the repository delete. The table is
returned unchanged on every failure path. -/
def handleDeleteComment (st : CommentsTable) (actor : Option Int)
    (commentID : Int) :
    (Except (ErrKind × String) String) × CommentsTable :=
  match actor with
  | none => (.error (.unauthorized, msgUnauthorized), st)
  | some userID =>
    match st.getByID commentID with
    | none => (.error (.notFound, msgCommentNotFound), st)
    | some comment =>
      if ¬ comment.ownerID = userID then
        (.error (.forbidden, msgCannotDeleteComment), st)
      else
        match st.delete commentID with
        | .ok st' => (.ok msgCommentDeleted, st')
        | .error _ => (.error (.internal, msgInternalDeleteComment), st)

/-- C7: an Update of a post, or a Delete of a comment, attempted by an
authenticated actor who is not the record's owner fails with 403 FORBIDDEN
— a kind distinct from Unauthenticated and from NotFound — and the table,
hence the targeted record, is returned unchanged. -/
theorem c7_non_owner_mutation_forbidden (pst : PostsTable)
    (cst : CommentsTable) (actor : Int) (postID commentID : Int)
    (req : UpdatePostRequest) (now : Int) (post : Post) (comment : Comment)
    (hhl : req.headline ≠ [])
    (hpost : pst.getByID postID = some post)
    (hpo : post.ownerID ≠ actor)
    (hcomment : cst.getByID commentID = some comment)
    (hco : comment.ownerID ≠ actor) :
    handleUpdatePost pst (some actor) postID req now =
      (.error (.forbidden, msgUpdateOwnPosts), pst) ∧
    handleDeleteComment cst (some actor) commentID =
      (.error (.forbidden, msgCannotDeleteComment), cst) ∧
    ErrKind.forbidden ≠ ErrKind.unauthorized ∧
    ErrKind.forbidden ≠ ErrKind.notFound := by
  refine ⟨?_, ?_, by decide, by decide⟩
  · simp only [handleUpdatePost, hpost]
    rw [if_neg hhl, if_pos hpo]
  · simp only [handleDeleteComment, hcomment]
    rw [if_pos hco]

/-- Witness for C7 at concrete inputs: user 2 updating post 1 owned by
user 1, and deleting comment 1 owned by user 1, both get 403 and both
tables are unchanged. -/
theorem c7_non_owner_mutation_forbidden_witness :
    handleUpdatePost ⟨[⟨1, 1, 1, goStr "h", none, none, 0, 0, false⟩], 2⟩
      (some 2) 1 ⟨goStr "new", none, none⟩ 9 =
      (.error (.forbidden, msgUpdateOwnPosts),
        ⟨[⟨1, 1, 1, goStr "h", none, none, 0, 0, false⟩], 2⟩) ∧
    handleDeleteComment ⟨[⟨1, 1, 1, none, goStr "c", none, 0, 0, false⟩], 2⟩
      (some 2) 1 =
      (.error (.forbidden, msgCannotDeleteComment),
        ⟨[⟨1, 1, 1, none, goStr "c", none, 0, 0, false⟩], 2⟩) := by
  have h := c7_non_owner_mutation_forbidden
    ⟨[⟨1, 1, 1, goStr "h", none, none, 0, 0, false⟩], 2⟩
    ⟨[⟨1, 1, 1, none, goStr "c", none, 0, 0, false⟩], 2⟩ 2 1 1
    ⟨goStr "new", none, none⟩ 9
    ⟨1, 1, 1, goStr "h", none, none, 0, 0, false⟩
    ⟨1, 1, 1, none, goStr "c", none, 0, 0, false⟩
    (by decide) (by decide) (by decide) (by decide) (by decide)
  exact ⟨h.1, h.2.1⟩

end WebForum
